import Mathlib

/-!
Verification of the R lexical analyzer (`RLexer` in
`src/practice/lab1_lexer/lexer.py`).  The scanner core — character
classification, static and dynamic symbol tables, the string, comment,
identifier and numeric sub-scanners, the numeric validator
`is_valid_number`, and the dispatch loop of `tokenize` — is embedded
shallowly below.  Python strings are modelled as `List Char`; the
character-classification predicates embed the ASCII behaviour of the
Python `str` methods (all inputs of interest are ASCII).  The dispatch
loop runs on fuel equal to the input length, which always suffices since
every iteration consumes at least one character.
-/

set_option maxHeartbeats 1000000

namespace RLex

/-- ASCII fragment of Python `str.isspace` (code points 9-13, 28-31, 32). -/
def pyIsSpace (c : Char) : Bool :=
  decide ((9 ≤ c.toNat ∧ c.toNat ≤ 13) ∨ (28 ≤ c.toNat ∧ c.toNat ≤ 32))

/-- ASCII fragment of Python `str.isdigit`. -/
def pyIsDigit (c : Char) : Bool :=
  decide (48 ≤ c.toNat ∧ c.toNat ≤ 57)

/-- ASCII fragment of Python `str.isalpha`. -/
def pyIsAlpha (c : Char) : Bool :=
  decide ((65 ≤ c.toNat ∧ c.toNat ≤ 90) ∨ (97 ≤ c.toNat ∧ c.toNat ≤ 122))

/-- ASCII fragment of Python `str.isalnum`. -/
def pyIsAlnum (c : Char) : Bool := pyIsAlpha c || pyIsDigit c

/-- Token kinds, mirroring the `LexemType` enumeration of the source. -/
inductive LexemType where
  | KEYWORD
  | DELIMITER
  | OPERATION
  | IDENTIFIER
  | NUMBER
  | STRING
  | COMMENT
  | ERROR
deriving DecidableEq, Repr

/-- The `Token` dataclass of the source. -/
structure Token where
  code : String
  value : String
  line : Nat
  column : Nat
  lex_type : LexemType
  error_msg : String := ""
deriving DecidableEq, Repr

/-- The `RLexer` object state: three static tables built by `_init_tables`,
three dynamic tables, the token sequence, the error lists and the cursor. -/
@[ext]
structure RLexer where
  keywords : List (String × Nat)
  delimiters : List (String × Nat)
  operations : List (String × Nat)
  identifiers : List String
  numbers : List String
  strings : List String
  token_sequence : List Token
  errors : List String
  error_tokens : List Token
  current_line : Nat
  current_column : Nat
  original_code : String
deriving DecidableEq, Repr

/-- Python lexicographic (code-point) comparison of character lists. -/
def charListLe : List Char → List Char → Bool
  | [], _ => true
  | _ :: _, [] => false
  | a :: as, b :: bs =>
    if a.toNat < b.toNat then true
    else if b.toNat < a.toNat then false
    else charListLe as bs

/-- Python `<=` on strings (code-point lexicographic order). -/
def strLe (s t : String) : Bool := charListLe s.data t.data

/-- One insertion step of insertion sort with respect to `strLe`. -/
def insertSorted (s : String) : List String → List String
  | [] => [s]
  | t :: ts => if strLe s t then s :: t :: ts else t :: insertSorted s ts

/-- Stable ascending sort, the behaviour of Python `sorted` on strings. -/
def sortStrings : List String → List String
  | [] => []
  | s :: ss => insertSorted s (sortStrings ss)

/-- Python `enumerate(l, 1)` turned into a `literal ↦ id` association list. -/
def enumFrom1 (l : List String) : List (String × Nat) :=
  l.enum.map (fun p => (p.2, p.1 + 1))

/-- The keyword list of `_init_tables`, in source order. -/
def keywords_list : List String :=
  ["if", "else", "while", "for", "in", "next", "break",
   "function", "return", "TRUE", "FALSE", "NULL", "NA",
   "Inf", "NaN", "repeat", "switch", "try", "tryCatch",
   "stop", "warning", "require", "library", "source",
   "setwd", "getwd", "list", "matrix", "data.frame",
   "c", "cbind", "rbind", "length", "nrow", "ncol",
   "summary", "print", "cat", "paste", "sprintf",
   "subset", "merge", "apply", "lapply", "sapply",
   "tapply", "mapply", "aggregate", "plot", "ggplot",
   "lm", "glm", "summary.lm", "anova", "predict"]

/-- The delimiter list of `_init_tables`, in source order. -/
def delimiters_list : List String :=
  [".", ",", ";", ":", "::", ":::",
   "(", ")", "[", "]", "[[", "]]",
   "\x7b", "\x7d", "\x27", "\"", "`", "$", "@",
   "\\", "\n", "\t", " ", "\r"]

/-- The operation list of `_init_tables`, in source order. -/
def operations_list : List String :=
  ["+", "-", "*", "/", "^", "**",
   "%%", "%/%", "%*%", "%in%",
   "<", ">", "<=", ">=", "==", "!=",
   "=", "<-", "<<-", "->", "->>",
   "&", "|", "!", "&&", "||",
   "~", ":", "$", "@",
   "%>%", "%T>%", "%<>%", "%$%"]

/-- A fresh scanner as built by `__init__` and `_init_tables`: keyword ids
are assigned after a case-sensitive sort, delimiter and operation ids in
list order. -/
def RLexer.new : RLexer :=
  { keywords := enumFrom1 (sortStrings keywords_list)
    delimiters := enumFrom1 delimiters_list
    operations := enumFrom1 operations_list
    identifiers := []
    numbers := []
    strings := []
    token_sequence := []
    errors := []
    error_tokens := []
    current_line := 1
    current_column := 1
    original_code := "" }

/-- The `reset` method: dynamic tables, token sequence, error lists and
cursor are cleared; the static tables and `original_code` are untouched. -/
def RLexer.reset (lx : RLexer) : RLexer :=
  { lx with
    identifiers := []
    numbers := []
    strings := []
    token_sequence := []
    errors := []
    error_tokens := []
    current_line := 1
    current_column := 1 }

/-- The `is_keyword` lookup (`dict.get` on the keywords table). -/
def RLexer.is_keyword (lx : RLexer) (w : String) : Option Nat :=
  lx.keywords.lookup w

/-- The `is_delimiter` lookup. -/
def RLexer.is_delimiter (lx : RLexer) (s : String) : Option Nat :=
  lx.delimiters.lookup s

/-- The `is_operation` lookup. -/
def RLexer.is_operation (lx : RLexer) (s : String) : Option Nat :=
  lx.operations.lookup s

/-- First-seen id of `s` in an insertion-ordered table (`1`-based). -/
def lookupIdFrom (s : String) : List String → Nat → Option Nat
  | [], _ => none
  | t :: ts, k => if t = s then some k else lookupIdFrom s ts (k + 1)

/-- Interning into a dynamic table: the shared body of `add_identifier`,
`add_number` and `add_string` (insert on first sight, id `len + 1`). -/
def addToTable (tbl : List String) (s : String) : List String × Nat :=
  match lookupIdFrom s tbl 1 with
  | some i => (tbl, i)
  | none => (tbl ++ [s], tbl.length + 1)

/-- The `add_identifier` method: updated table and assigned id. -/
def RLexer.add_identifier (lx : RLexer) (name : String) : List String × Nat :=
  addToTable lx.identifiers name

/-- The `add_number` method: updated table and assigned id. -/
def RLexer.add_number (lx : RLexer) (num : String) : List String × Nat :=
  addToTable lx.numbers num

/-- The `add_string` method: updated table and assigned id. -/
def RLexer.add_string (lx : RLexer) (s : String) : List String × Nat :=
  addToTable lx.strings s

/-- Count of decimal points, Python `num_str.count(".")`. -/
def countDots (l : List Char) : Nat := l.count '.'

/-- Python `"e" in num_str.lower() or "E" in num_str.lower()`. -/
def hasE (l : List Char) : Bool := l.any (fun c => c == 'e' || c == 'E')

/-- Python `re.split(r"[eE]", num_str)`. -/
def splitOnE : List Char → List (List Char)
  | [] => [[]]
  | c :: cs =>
    if c == 'e' || c == 'E' then [] :: splitOnE cs
    else
      match splitOnE cs with
      | p :: ps => (c :: p) :: ps
      | [] => [[c]]

/-- Strip one optional leading sign from the exponent part. -/
def stripSign : List Char → List Char
  | [] => []
  | c :: cs => if c == '+' || c == '-' then cs else c :: cs

/-- The letter scan of `is_valid_number`: report the first alphabetic
character that is not a well-placed `e`/`E` exponent marker (not at index
0, not at the last index, followed by a digit or a sign).  The Boolean
argument records whether we are still at index 0. -/
def findBadLetter : Bool → List Char → Option Char
  | _, [] => none
  | first, c :: cs =>
    if pyIsAlpha c then
      if c.toLower == 'e' && !first && decide (cs ≠ []) &&
          (match cs with
           | d :: _ => pyIsDigit d || d == '+' || d == '-'
           | [] => false) then
        findBadLetter false cs
      else some c
    else findBadLetter false cs

/-- The `is_valid_number` structural validator, returning the Python
`(bool, message)` pair. -/
def is_valid_number (num : List Char) : Bool × String :=
  if num = [] then (false, "Пустое число")
  else if 1 < countDots num then
    (false, "Некорректное использование точки - число содержит несколько десятичных разделителей")
  else
    match findBadLetter true num with
    | some ch =>
      (false, "Некорректное построение числа - содержит букву \x27" ++ String.mk [ch] ++ "\x27")
    | none =>
      if hasE num then
        match splitOnE num with
        | [m, e] =>
          if m = [] ∨ e = [] then (false, "Некорректная экспоненциальная запись")
          else if 1 < countDots m then
            (false, "Некорректная экспоненциальная запись - множественные точки в мантиссе")
          else
            if stripSign e = [] ∨ (stripSign e).all pyIsDigit = false then
              (false, "Некорректная экспоненциальная запись")
            else (true, "Корректное число")
        | _ => (false, "Некорректная экспоненциальная запись")
      else (true, "Корректное число")

/-- The string sub-scanner body: collect characters after the opening
quote `q`, a backslash escaping exactly one following character (both
copied verbatim).  Returns the collected text (without the delimiting
quotes), whether the closing quote was found, and the remaining input
after the consumed span. -/
def scanStr (q : Char) : List Char → List Char × Bool × List Char
  | [] => ([], false, [])
  | [c] => if c = q then ([], true, []) else ([c], false, [])
  | c :: d :: ds =>
    if c = q then ([], true, d :: ds)
    else if c = '\\' then
      (c :: d :: (scanStr q ds).1, (scanStr q ds).2.1, (scanStr q ds).2.2)
    else
      (c :: (scanStr q (d :: ds)).1, (scanStr q (d :: ds)).2.1, (scanStr q (d :: ds)).2.2)

/-- No unescaped occurrence of the quote `q`: the string scan will reach
the end of input without finding the closing quote. -/
def noClose (q : Char) : List Char → Bool
  | [] => true
  | [c] => decide (c ≠ q)
  | c :: d :: ds =>
    if c = q then false
    else if c = '\\' then noClose q ds
    else noClose q (d :: ds)

/-- Does the remaining input start with a digit (`code[i+1].isdigit()`)? -/
def digitNext : List Char → Bool
  | d :: _ => pyIsDigit d
  | [] => false

/-- Does the remaining input start with a dot? -/
def headIsDot : List Char → Bool
  | d :: _ => d == '.'
  | [] => false

/-- Does the remaining input start with a digit or an explicit sign? -/
def expStart : List Char → Bool
  | d :: _ => pyIsDigit d || d == '+' || d == '-'
  | [] => false

/-- Python `number and number[-1].lower() == "e"`. -/
def prevEndsE (prev : List Char) : Bool :=
  match prev.getLast? with
  | some pc => pc.toLower == 'e'
  | none => false

/-- Python `number and not number[-1].isalpha()` together with the
lookahead `code[i+1].isdigit() or code[i+1] in "+-"`. -/
def eMarkOk (prev : List Char) (cs : List Char) : Bool :=
  match prev.getLast? with
  | some pc => !pyIsAlpha pc && expStart cs
  | none => false

/-- Characters absorbed into the run after a letter error. -/
def numAbsorbChar (d : Char) : Bool := pyIsAlnum d || d == '.'

/-- The numeric consumption loop of `tokenize` (lines 269-333).  `prev`
is the run collected so far; the result is the newly consumed characters,
a flag marking the scan-time letters-in-number error, and the remaining
input. -/
def consumeNum (prev : List Char) : List Char → List Char × Bool × List Char
  | [] => ([], false, [])
  | c :: cs =>
    if pyIsAlpha c then
      if c.toLower == 'e' && eMarkOk prev cs then
        (c :: (consumeNum (prev ++ [c]) cs).1, (consumeNum (prev ++ [c]) cs).2.1,
          (consumeNum (prev ++ [c]) cs).2.2)
      else
        (c :: cs.takeWhile numAbsorbChar, true, cs.dropWhile numAbsorbChar)
    else if c = '.' then
      if headIsDot cs then ([], false, c :: cs)
      else
        (c :: (consumeNum (prev ++ [c]) cs).1, (consumeNum (prev ++ [c]) cs).2.1,
          (consumeNum (prev ++ [c]) cs).2.2)
    else if c = '+' ∨ c = '-' then
      if prevEndsE prev then
        (c :: (consumeNum (prev ++ [c]) cs).1, (consumeNum (prev ++ [c]) cs).2.1,
          (consumeNum (prev ++ [c]) cs).2.2)
      else ([], false, c :: cs)
    else if pyIsDigit c then
      (c :: (consumeNum (prev ++ [c]) cs).1, (consumeNum (prev ++ [c]) cs).2.1,
        (consumeNum (prev ++ [c]) cs).2.2)
    else ([], false, c :: cs)

/-- The multi-character operation matcher: try prefix lengths `n, ..., 1`
against the operations table, skipping lengths that overrun the input
(Python `for length_op in range(4, 0, -1)`). -/
def findOpAux (ops : List (String × Nat)) (l : List Char) : Nat → Option (List Char × Nat)
  | 0 => none
  | n + 1 =>
    if n + 1 ≤ l.length then
      match ops.lookup (String.mk (l.take (n + 1))) with
      | some oid => some (l.take (n + 1), oid)
      | none => findOpAux ops l n
    else findOpAux ops l n

/-- Longest-prefix-first operation match with lengths 4 down to 1. -/
def findOp (ops : List (String × Nat)) (l : List Char) : Option (List Char × Nat) :=
  findOpAux ops l 4

/-- Python `self.token_sequence and self.token_sequence[-1].lex_type ==
LexemType.ERROR` (false on an empty sequence). -/
def lastTokenIsErr (ts : List Token) : Bool :=
  match ts.getLast? with
  | some t => t.lex_type == LexemType.ERROR
  | none => false

/-- The whitespace-skip branch of the dispatch loop: a newline advances
the line counter and resets the column, any other whitespace advances the
column. -/
def wsStep (st : RLexer) (c : Char) (rest : List Char) : RLexer × List Char :=
  if c = '\n' then
    ({ st with current_line := st.current_line + 1, current_column := 1 }, rest)
  else
    ({ st with current_column := st.current_column + 1 }, rest)

/-- The line-comment branch: consume through the end of the line
(exclusive of the newline) and emit a Comment token with the fixed code
`C#`. -/
def commentStep (st : RLexer) (c : Char) (rest : List Char) : RLexer × List Char :=
  ({ st with
      token_sequence := st.token_sequence ++
        [⟨"C#", String.mk (c :: rest.takeWhile (fun d => d != '\n')),
          st.current_line, st.current_column, LexemType.COMMENT, ""⟩],
      current_column := st.current_column + (c :: rest.takeWhile (fun d => d != '\n')).length },
    rest.dropWhile (fun d => d != '\n'))

/-- The quoted-string branch: on a closing quote the value (including
both delimiting quotes) is interned and a String token emitted; at end
of input an unterminated-string Error token carries the partial text. -/
def stringStep (st : RLexer) (c : Char) (rest : List Char) : RLexer × List Char :=
  if (scanStr c rest).2.1 then
    ({ st with
        strings := (st.add_string (String.mk (c :: (scanStr c rest).1 ++ [c]))).1,
        token_sequence := st.token_sequence ++
          [⟨"S" ++ toString (st.add_string (String.mk (c :: (scanStr c rest).1 ++ [c]))).2,
            String.mk (c :: (scanStr c rest).1 ++ [c]),
            st.current_line, st.current_column, LexemType.STRING, ""⟩],
        current_column := st.current_column + (scanStr c rest).1.length + 2 },
      (scanStr c rest).2.2)
  else
    ({ st with
        errors := st.errors ++
          ["Строка " ++ toString st.current_line ++ ", колонка " ++
            toString st.current_column ++ ": Незакрытая строка"],
        token_sequence := st.token_sequence ++
          [⟨"E1", String.mk (c :: (scanStr c rest).1),
            st.current_line, st.current_column, LexemType.ERROR, "Незакрытая строка"⟩],
        current_column := st.current_column + 1 + (scanStr c rest).1.length },
      (scanStr c rest).2.2)

/-- The two-dot branch (lines 234-239 of the source): a `.` followed by
another `.` is emitted unconditionally as the fixed Delimiter token
`R19` with value `..`, consuming both characters. -/
def dotsStep (st : RLexer) (rest : List Char) : RLexer × List Char :=
  ({ st with
      token_sequence := st.token_sequence ++
        [⟨"R19", "..", st.current_line, st.current_column, LexemType.DELIMITER, ""⟩],
      current_column := st.current_column + 2 },
    rest.tail)

/-- The identifier/keyword branch: consume alphanumerics, dots and
underscores; a keyword uses the precomputed static id, anything else is
interned into the identifiers table. -/
def identStep (st : RLexer) (c : Char) (rest : List Char) : RLexer × List Char :=
  match st.is_keyword (String.mk ((c :: rest).takeWhile (fun d => pyIsAlnum d || d == '.' || d == '_'))) with
  | some kid =>
    ({ st with
        token_sequence := st.token_sequence ++
          [⟨"W" ++ toString kid,
            String.mk ((c :: rest).takeWhile (fun d => pyIsAlnum d || d == '.' || d == '_')),
            st.current_line, st.current_column, LexemType.KEYWORD, ""⟩],
        current_column := st.current_column +
          ((c :: rest).takeWhile (fun d => pyIsAlnum d || d == '.' || d == '_')).length },
      (c :: rest).dropWhile (fun d => pyIsAlnum d || d == '.' || d == '_'))
  | none =>
    ({ st with
        identifiers := (st.add_identifier
          (String.mk ((c :: rest).takeWhile (fun d => pyIsAlnum d || d == '.' || d == '_')))).1,
        token_sequence := st.token_sequence ++
          [⟨"I" ++ toString (st.add_identifier
              (String.mk ((c :: rest).takeWhile (fun d => pyIsAlnum d || d == '.' || d == '_')))).2,
            String.mk ((c :: rest).takeWhile (fun d => pyIsAlnum d || d == '.' || d == '_')),
            st.current_line, st.current_column, LexemType.IDENTIFIER, ""⟩],
        current_column := st.current_column +
          ((c :: rest).takeWhile (fun d => pyIsAlnum d || d == '.' || d == '_')).length },
      (c :: rest).dropWhile (fun d => pyIsAlnum d || d == '.' || d == '_'))

/-- The numeric-literal branch (lines 262-344): consume the candidate
run; a scan-time letter error emits `E3` at once; otherwise, when the
run is nonempty and the previously emitted token is not an Error token,
validate it and emit a Number token or an `E4` structural error —
otherwise emit nothing at all (the run is consumed silently). -/
def numberStep (st : RLexer) (c : Char) (rest : List Char) : RLexer × List Char :=
  if (consumeNum [] (c :: rest)).2.1 then
    ({ st with
        errors := st.errors ++
          ["Строка " ++ toString st.current_line ++ ", колонка " ++
            toString st.current_column ++
            ": Некорректное построение числа - \x27" ++
            String.mk (consumeNum [] (c :: rest)).1 ++ "\x27 содержит буквы"],
        token_sequence := st.token_sequence ++
          [⟨"E3", String.mk (consumeNum [] (c :: rest)).1,
            st.current_line, st.current_column, LexemType.ERROR,
            "Некорректное построение числа - \x27" ++
              String.mk (consumeNum [] (c :: rest)).1 ++ "\x27 содержит буквы"⟩],
        current_column := st.current_column + (consumeNum [] (c :: rest)).1.length },
      (consumeNum [] (c :: rest)).2.2)
  else if (consumeNum [] (c :: rest)).1 ≠ [] ∧ lastTokenIsErr st.token_sequence = false then
    if (is_valid_number (consumeNum [] (c :: rest)).1).1 then
      ({ st with
          numbers := (st.add_number (String.mk (consumeNum [] (c :: rest)).1)).1,
          token_sequence := st.token_sequence ++
            [⟨"N" ++ toString (st.add_number (String.mk (consumeNum [] (c :: rest)).1)).2,
              String.mk (consumeNum [] (c :: rest)).1,
              st.current_line, st.current_column, LexemType.NUMBER, ""⟩],
          current_column := st.current_column + (consumeNum [] (c :: rest)).1.length },
        (consumeNum [] (c :: rest)).2.2)
    else
      ({ st with
          errors := st.errors ++
            ["Строка " ++ toString st.current_line ++ ", колонка " ++
              toString st.current_column ++ ": " ++
              (is_valid_number (consumeNum [] (c :: rest)).1).2 ++
              " - \x27" ++ String.mk (consumeNum [] (c :: rest)).1 ++ "\x27"],
          token_sequence := st.token_sequence ++
            [⟨"E4", String.mk (consumeNum [] (c :: rest)).1,
              st.current_line, st.current_column, LexemType.ERROR,
              (is_valid_number (consumeNum [] (c :: rest)).1).2⟩],
          current_column := st.current_column + (consumeNum [] (c :: rest)).1.length },
        (consumeNum [] (c :: rest)).2.2)
  else
    ({ st with current_column := st.current_column + (consumeNum [] (c :: rest)).1.length },
      (consumeNum [] (c :: rest)).2.2)

/-- The operation/delimiter branch: longest-prefix-first multi-character
operation match, then a single-character delimiter, then a
single-character operation, and finally the unknown-symbol error `E5`
consuming exactly one character. -/
def opStep (st : RLexer) (c : Char) (rest : List Char) : RLexer × List Char :=
  match findOp st.operations (c :: rest) with
  | some p =>
    ({ st with
        token_sequence := st.token_sequence ++
          [⟨"O" ++ toString p.2, String.mk p.1,
            st.current_line, st.current_column, LexemType.OPERATION, ""⟩],
        current_column := st.current_column + p.1.length },
      (c :: rest).drop p.1.length)
  | none =>
    match st.is_delimiter (String.mk [c]) with
    | some did =>
      ({ st with
          token_sequence := st.token_sequence ++
            [⟨"R" ++ toString did, String.mk [c],
              st.current_line, st.current_column, LexemType.DELIMITER, ""⟩],
          current_column := st.current_column + 1 },
        rest)
    | none =>
      match st.is_operation (String.mk [c]) with
      | some oid =>
        ({ st with
            token_sequence := st.token_sequence ++
              [⟨"O" ++ toString oid, String.mk [c],
                st.current_line, st.current_column, LexemType.OPERATION, ""⟩],
            current_column := st.current_column + 1 },
          rest)
      | none =>
        ({ st with
            errors := st.errors ++
              ["Строка " ++ toString st.current_line ++ ", колонка " ++
                toString st.current_column ++ ": Неизвестный символ \x27" ++
                String.mk [c] ++ "\x27"],
            token_sequence := st.token_sequence ++
              [⟨"E5", String.mk [c], st.current_line, st.current_column, LexemType.ERROR,
                "Неизвестный символ \x27" ++ String.mk [c] ++ "\x27"⟩],
            current_column := st.current_column + 1 },
          rest)

/-- One iteration of the `tokenize` dispatch loop at current character
`c` with remaining input `rest`: returns the updated scanner state and
the input left after the consumed span.  The branch order is that of the
source: whitespace, comment, quoted string, two-dot run, identifier or
keyword, numeric literal, operation/delimiter/unknown. -/
def dispatchStep (st : RLexer) (c : Char) (rest : List Char) : RLexer × List Char :=
  if pyIsSpace c then wsStep st c rest
  else if c = '#' then commentStep st c rest
  else if c = '"' ∨ c = '\'' then stringStep st c rest
  else if c = '.' ∧ headIsDot rest then dotsStep st rest
  else if pyIsAlpha c ∨ c = '.' ∨ c = '_' then identStep st c rest
  else if pyIsDigit c ∨ (c = '.' ∧ digitNext rest) then numberStep st c rest
  else opStep st c rest

/-- The `while i < length` dispatch loop of `tokenize`.  Every iteration
consumes at least one character, so fuel equal to the input length always
suffices. -/
def scanLoop : Nat → List Char → RLexer → RLexer
  | 0, _, st => st
  | _ + 1, [], st => st
  | fuel + 1, c :: rest, st =>
    scanLoop fuel (dispatchStep st c rest).2 (dispatchStep st c rest).1

/-- The `tokenize` method: `reset`, store the source text, then run the
dispatch loop over the whole input. -/
def RLexer.tokenize (lx : RLexer) (code : String) : RLexer :=
  scanLoop code.data.length code.data { lx.reset with original_code := code }

/-- A full scan of `code` on a freshly constructed scanner. -/
def tokenizeText (code : String) : RLexer :=
  RLexer.new.tokenize code


/-- Total lexeme length over a token list. -/
def sumVal (ts : List Token) : Nat := (ts.map (fun t => t.value.length)).sum

/-- Number of Error-kind tokens in a token list. -/
def errCount (ts : List Token) : Nat :=
  ts.countP (fun t => t.lex_type == LexemType.ERROR)

theorem consumeNum_split : ∀ (l : List Char) (prev : List Char),
    (consumeNum prev l).1 ++ (consumeNum prev l).2.2 = l := by
  intro l
  induction l with
  | nil => intro prev; simp [consumeNum]
  | cons c cs ih =>
    intro prev
    simp only [consumeNum]
    split
    · split
      · simp [ih]
      · simp [List.takeWhile_append_dropWhile]
    · split
      · split
        · simp
        · simp [ih]
      · split
        · split
          · simp [ih]
          · simp
        · split
          · simp [ih]
          · simp

theorem scanStr_split : ∀ (l : List Char) (q : Char),
    ((scanStr q l).2.1 = true → l = (scanStr q l).1 ++ q :: (scanStr q l).2.2) ∧
    ((scanStr q l).2.1 = false → (scanStr q l).1 = l ∧ (scanStr q l).2.2 = [])
  | [], q => by simp [scanStr]
  | [c], q => by
    by_cases h : c = q <;> simp [scanStr, h]
  | c :: d :: ds, q => by
    have ih1 := scanStr_split ds q
    have ih2 := scanStr_split (d :: ds) q
    by_cases h1 : c = q
    · simp [scanStr, h1]
    · by_cases h2 : c = '\\'
      · simp only [scanStr, if_neg h1, if_pos h2]
        constructor
        · intro hc
          have h3 := ih1.1 hc
          simpa using congrArg (fun t => c :: d :: t) h3
        · intro hc
          have h3 := ih1.2 hc
          simp [h3.1, h3.2]
      · simp only [scanStr, if_neg h1, if_neg h2]
        constructor
        · intro hc
          have h3 := ih2.1 hc
          simpa using congrArg (fun t => c :: t) h3
        · intro hc
          have h3 := ih2.2 hc
          simp [h3.1, h3.2]

theorem noClose_scanStr : ∀ (l : List Char) (q : Char),
    (scanStr q l).2.1 = !noClose q l
  | [], q => by simp [scanStr, noClose]
  | [c], q => by by_cases h : c = q <;> simp [scanStr, noClose, h]
  | c :: d :: ds, q => by
    have ih1 := noClose_scanStr ds q
    have ih2 := noClose_scanStr (d :: ds) q
    by_cases h1 : c = q
    · simp [scanStr, noClose, h1]
    · by_cases h2 : c = '\\'
      · simp only [scanStr, noClose, if_neg h1, if_pos h2]
        exact ih1
      · simp only [scanStr, noClose, if_neg h1, if_neg h2]
        exact ih2

theorem scanStr_noClose_eq (q : Char) (l : List Char) (h : noClose q l = true) :
    scanStr q l = (l, false, []) := by
  have hc : (scanStr q l).2.1 = false := by rw [noClose_scanStr, h]; rfl
  have h2 := (scanStr_split l q).2 hc
  have hp : (scanStr q l) = ((scanStr q l).1, (scanStr q l).2.1, (scanStr q l).2.2) := rfl
  rw [hp, h2.1, h2.2, hc]

theorem findOpAux_le (ops : List (String × Nat)) (l : List Char) :
    ∀ (n : Nat) (p : List Char × Nat), findOpAux ops l n = some p → p.1.length ≤ l.length := by
  intro n
  induction n with
  | zero => intro p h; simp [findOpAux] at h
  | succ m ih =>
    intro p h
    simp only [findOpAux] at h
    split at h
    · split at h
      · cases h
        simp only [List.length_take]
        omega
      · exact ih p h
    · exact ih p h

@[simp]
theorem length_mk (l : List Char) : (String.mk l).length = l.length := rfl

@[simp]
theorem sumVal_nil : sumVal [] = 0 := rfl

@[simp]
theorem sumVal_append (a b : List Token) : sumVal (a ++ b) = sumVal a + sumVal b := by
  simp [sumVal]

@[simp]
theorem errCount_nil : errCount [] = 0 := rfl

@[simp]
theorem errCount_append (a b : List Token) :
    errCount (a ++ b) = errCount a + errCount b := by
  simp [errCount, List.countP_append]

@[simp]
theorem errCount_singleton (t : Token) :
    errCount [t] = if t.lex_type = LexemType.ERROR then 1 else 0 := by
  simp [errCount, List.countP_cons, List.countP_nil, beq_iff_eq]

@[simp]
theorem sumVal_singleton (t : Token) : sumVal [t] = t.value.length := by
  simp [sumVal]

theorem addToTable_ext (tbl : List String) (s : String) :
    ∃ e, (addToTable tbl s).1 = tbl ++ e := by
  unfold addToTable
  split
  · exact ⟨[], by simp⟩
  · exact ⟨[s], rfl⟩

theorem tw_dw_length (p : Char → Bool) (l : List Char) :
    (l.takeWhile p).length + (l.dropWhile p).length = l.length := by
  have h := congrArg List.length (List.takeWhile_append_dropWhile (p := p) (l := l))
  simp only [List.length_append] at h
  exact h

theorem wsStep_statics (st : RLexer) (c : Char) (rest : List Char) :
    (wsStep st c rest).1.keywords = st.keywords ∧
    (wsStep st c rest).1.delimiters = st.delimiters ∧
    (wsStep st c rest).1.operations = st.operations ∧
    (wsStep st c rest).1.original_code = st.original_code := by
  unfold wsStep; split <;> simp

theorem commentStep_statics (st : RLexer) (c : Char) (rest : List Char) :
    (commentStep st c rest).1.keywords = st.keywords ∧
    (commentStep st c rest).1.delimiters = st.delimiters ∧
    (commentStep st c rest).1.operations = st.operations ∧
    (commentStep st c rest).1.original_code = st.original_code := by
  unfold commentStep; simp

theorem stringStep_statics (st : RLexer) (c : Char) (rest : List Char) :
    (stringStep st c rest).1.keywords = st.keywords ∧
    (stringStep st c rest).1.delimiters = st.delimiters ∧
    (stringStep st c rest).1.operations = st.operations ∧
    (stringStep st c rest).1.original_code = st.original_code := by
  unfold stringStep; split <;> simp

theorem dotsStep_statics (st : RLexer) (rest : List Char) :
    (dotsStep st rest).1.keywords = st.keywords ∧
    (dotsStep st rest).1.delimiters = st.delimiters ∧
    (dotsStep st rest).1.operations = st.operations ∧
    (dotsStep st rest).1.original_code = st.original_code := by
  unfold dotsStep; simp

theorem identStep_statics (st : RLexer) (c : Char) (rest : List Char) :
    (identStep st c rest).1.keywords = st.keywords ∧
    (identStep st c rest).1.delimiters = st.delimiters ∧
    (identStep st c rest).1.operations = st.operations ∧
    (identStep st c rest).1.original_code = st.original_code := by
  unfold identStep; repeat' split
  all_goals simp

theorem numberStep_statics (st : RLexer) (c : Char) (rest : List Char) :
    (numberStep st c rest).1.keywords = st.keywords ∧
    (numberStep st c rest).1.delimiters = st.delimiters ∧
    (numberStep st c rest).1.operations = st.operations ∧
    (numberStep st c rest).1.original_code = st.original_code := by
  unfold numberStep; repeat' split
  all_goals simp

theorem opStep_statics (st : RLexer) (c : Char) (rest : List Char) :
    (opStep st c rest).1.keywords = st.keywords ∧
    (opStep st c rest).1.delimiters = st.delimiters ∧
    (opStep st c rest).1.operations = st.operations ∧
    (opStep st c rest).1.original_code = st.original_code := by
  unfold opStep; repeat' split
  all_goals simp

theorem dispatchStep_statics (st : RLexer) (c : Char) (rest : List Char) :
    (dispatchStep st c rest).1.keywords = st.keywords ∧
    (dispatchStep st c rest).1.delimiters = st.delimiters ∧
    (dispatchStep st c rest).1.operations = st.operations ∧
    (dispatchStep st c rest).1.original_code = st.original_code := by
  unfold dispatchStep
  repeat' split
  exacts [wsStep_statics st c rest, commentStep_statics st c rest,
    stringStep_statics st c rest, dotsStep_statics st rest,
    identStep_statics st c rest, numberStep_statics st c rest,
    opStep_statics st c rest]
theorem wsStep_errBalance (st : RLexer) (c : Char) (rest : List Char) :
    (wsStep st c rest).1.errors.length + errCount st.token_sequence =
      errCount (wsStep st c rest).1.token_sequence + st.errors.length := by
  unfold wsStep; split <;> simp <;> omega

theorem commentStep_errBalance (st : RLexer) (c : Char) (rest : List Char) :
    (commentStep st c rest).1.errors.length + errCount st.token_sequence =
      errCount (commentStep st c rest).1.token_sequence + st.errors.length := by
  unfold commentStep; simp; omega

theorem stringStep_errBalance (st : RLexer) (c : Char) (rest : List Char) :
    (stringStep st c rest).1.errors.length + errCount st.token_sequence =
      errCount (stringStep st c rest).1.token_sequence + st.errors.length := by
  unfold stringStep; split <;> simp <;> omega

theorem dotsStep_errBalance (st : RLexer) (rest : List Char) :
    (dotsStep st rest).1.errors.length + errCount st.token_sequence =
      errCount (dotsStep st rest).1.token_sequence + st.errors.length := by
  unfold dotsStep; simp; omega

theorem identStep_errBalance (st : RLexer) (c : Char) (rest : List Char) :
    (identStep st c rest).1.errors.length + errCount st.token_sequence =
      errCount (identStep st c rest).1.token_sequence + st.errors.length := by
  unfold identStep; repeat' split
  all_goals simp
  all_goals omega

theorem numberStep_errBalance (st : RLexer) (c : Char) (rest : List Char) :
    (numberStep st c rest).1.errors.length + errCount st.token_sequence =
      errCount (numberStep st c rest).1.token_sequence + st.errors.length := by
  unfold numberStep; repeat' split
  all_goals simp
  all_goals omega

theorem opStep_errBalance (st : RLexer) (c : Char) (rest : List Char) :
    (opStep st c rest).1.errors.length + errCount st.token_sequence =
      errCount (opStep st c rest).1.token_sequence + st.errors.length := by
  unfold opStep; repeat' split
  all_goals simp
  all_goals omega

theorem dispatchStep_errBalance (st : RLexer) (c : Char) (rest : List Char) :
    (dispatchStep st c rest).1.errors.length + errCount st.token_sequence =
      errCount (dispatchStep st c rest).1.token_sequence + st.errors.length := by
  unfold dispatchStep
  repeat' split
  exacts [wsStep_errBalance st c rest, commentStep_errBalance st c rest,
    stringStep_errBalance st c rest, dotsStep_errBalance st rest,
    identStep_errBalance st c rest, numberStep_errBalance st c rest,
    opStep_errBalance st c rest]

theorem wsStep_sumVal (st : RLexer) (c : Char) (rest : List Char) :
    sumVal (wsStep st c rest).1.token_sequence + (wsStep st c rest).2.length ≤
      sumVal st.token_sequence + (c :: rest).length := by
  unfold wsStep; split <;> simp

theorem commentStep_sumVal (st : RLexer) (c : Char) (rest : List Char) :
    sumVal (commentStep st c rest).1.token_sequence + (commentStep st c rest).2.length ≤
      sumVal st.token_sequence + (c :: rest).length := by
  have h := tw_dw_length (fun d => d != '\n') rest
  unfold commentStep; simp; omega

theorem stringStep_sumVal (st : RLexer) (c : Char) (rest : List Char) :
    sumVal (stringStep st c rest).1.token_sequence + (stringStep st c rest).2.length ≤
      sumVal st.token_sequence + (c :: rest).length := by
  unfold stringStep; split
  · next hcl =>
      have h := congrArg List.length ((scanStr_split rest c).1 hcl)
      simp [List.length_append] at h
      simp
      omega
  · next hcl =>
      have h := (scanStr_split rest c).2 (by simpa using hcl)
      have h2 := congrArg List.length h.1
      simp [h.2]
      omega

theorem dotsStep_sumVal (st : RLexer) (rest : List Char) (h : headIsDot rest = true) :
    sumVal (dotsStep st rest).1.token_sequence + (dotsStep st rest).2.length ≤
      sumVal st.token_sequence + (rest.length + 1) := by
  cases rest with
  | nil => simp [headIsDot] at h
  | cons d ds =>
    unfold dotsStep
    have h2 : (".." : String).length = 2 := rfl
    simp [h2]
    omega

theorem identStep_sumVal (st : RLexer) (c : Char) (rest : List Char) :
    sumVal (identStep st c rest).1.token_sequence + (identStep st c rest).2.length ≤
      sumVal st.token_sequence + (c :: rest).length := by
  have h := tw_dw_length (fun d => pyIsAlnum d || d == '.' || d == '_') (c :: rest)
  simp only [List.length_cons] at h
  unfold identStep; repeat' split
  all_goals simp
  all_goals omega

theorem numberStep_sumVal (st : RLexer) (c : Char) (rest : List Char) :
    sumVal (numberStep st c rest).1.token_sequence + (numberStep st c rest).2.length ≤
      sumVal st.token_sequence + (c :: rest).length := by
  have h := congrArg List.length (consumeNum_split (c :: rest) [])
  simp only [List.length_append, List.length_cons] at h
  unfold numberStep; repeat' split
  all_goals simp
  all_goals omega

theorem opStep_sumVal (st : RLexer) (c : Char) (rest : List Char) :
    sumVal (opStep st c rest).1.token_sequence + (opStep st c rest).2.length ≤
      sumVal st.token_sequence + (c :: rest).length := by
  unfold opStep
  repeat' split
  · next p hp =>
      have h := findOpAux_le st.operations (c :: rest) 4 p hp
      simp only [List.length_cons] at h
      simp [List.length_drop]
      omega
  all_goals simp
  all_goals omega

theorem dispatchStep_sumVal (st : RLexer) (c : Char) (rest : List Char) :
    sumVal (dispatchStep st c rest).1.token_sequence + (dispatchStep st c rest).2.length ≤
      sumVal st.token_sequence + (c :: rest).length := by
  unfold dispatchStep
  repeat' split
  · exact wsStep_sumVal st c rest
  · exact commentStep_sumVal st c rest
  · exact stringStep_sumVal st c rest
  · next hcond => simpa using dotsStep_sumVal st rest hcond.2
  · exact identStep_sumVal st c rest
  · exact numberStep_sumVal st c rest
  · exact opStep_sumVal st c rest

theorem wsStep_ext (st : RLexer) (c : Char) (rest : List Char) :
    ∃ ts es ss, (wsStep st c rest).1.token_sequence = st.token_sequence ++ ts ∧
      (wsStep st c rest).1.errors = st.errors ++ es ∧
      (wsStep st c rest).1.strings = st.strings ++ ss := by
  unfold wsStep; split
  · exact ⟨[], [], [], by simp, by simp, by simp⟩
  · exact ⟨[], [], [], by simp, by simp, by simp⟩

theorem commentStep_ext (st : RLexer) (c : Char) (rest : List Char) :
    ∃ ts es ss, (commentStep st c rest).1.token_sequence = st.token_sequence ++ ts ∧
      (commentStep st c rest).1.errors = st.errors ++ es ∧
      (commentStep st c rest).1.strings = st.strings ++ ss := by
  unfold commentStep
  exact ⟨_, [], [], rfl, by simp, by simp⟩

theorem stringStep_ext (st : RLexer) (c : Char) (rest : List Char) :
    ∃ ts es ss, (stringStep st c rest).1.token_sequence = st.token_sequence ++ ts ∧
      (stringStep st c rest).1.errors = st.errors ++ es ∧
      (stringStep st c rest).1.strings = st.strings ++ ss := by
  unfold stringStep; split
  · obtain ⟨e, he⟩ := addToTable_ext st.strings
      (String.mk (c :: (scanStr c rest).1 ++ [c]))
    exact ⟨_, [], e, rfl, by simp, he⟩
  · exact ⟨_, _, [], rfl, rfl, by simp⟩

theorem dotsStep_ext (st : RLexer) (rest : List Char) :
    ∃ ts es ss, (dotsStep st rest).1.token_sequence = st.token_sequence ++ ts ∧
      (dotsStep st rest).1.errors = st.errors ++ es ∧
      (dotsStep st rest).1.strings = st.strings ++ ss := by
  unfold dotsStep
  exact ⟨_, [], [], rfl, by simp, by simp⟩

theorem identStep_ext (st : RLexer) (c : Char) (rest : List Char) :
    ∃ ts es ss, (identStep st c rest).1.token_sequence = st.token_sequence ++ ts ∧
      (identStep st c rest).1.errors = st.errors ++ es ∧
      (identStep st c rest).1.strings = st.strings ++ ss := by
  unfold identStep; repeat' split
  · exact ⟨_, [], [], rfl, by simp, by simp⟩
  · exact ⟨_, [], [], rfl, by simp, by simp⟩

theorem numberStep_ext (st : RLexer) (c : Char) (rest : List Char) :
    ∃ ts es ss, (numberStep st c rest).1.token_sequence = st.token_sequence ++ ts ∧
      (numberStep st c rest).1.errors = st.errors ++ es ∧
      (numberStep st c rest).1.strings = st.strings ++ ss := by
  unfold numberStep; repeat' split
  · exact ⟨_, _, [], rfl, rfl, by simp⟩
  · exact ⟨_, [], [], rfl, by simp, by simp⟩
  · exact ⟨_, _, [], rfl, rfl, by simp⟩
  · exact ⟨[], [], [], by simp, by simp, by simp⟩

theorem opStep_ext (st : RLexer) (c : Char) (rest : List Char) :
    ∃ ts es ss, (opStep st c rest).1.token_sequence = st.token_sequence ++ ts ∧
      (opStep st c rest).1.errors = st.errors ++ es ∧
      (opStep st c rest).1.strings = st.strings ++ ss := by
  unfold opStep; repeat' split
  · exact ⟨_, [], [], rfl, by simp, by simp⟩
  · exact ⟨_, [], [], rfl, by simp, by simp⟩
  · exact ⟨_, [], [], rfl, by simp, by simp⟩
  · exact ⟨_, _, [], rfl, rfl, by simp⟩

theorem dispatchStep_ext (st : RLexer) (c : Char) (rest : List Char) :
    ∃ ts es ss, (dispatchStep st c rest).1.token_sequence = st.token_sequence ++ ts ∧
      (dispatchStep st c rest).1.errors = st.errors ++ es ∧
      (dispatchStep st c rest).1.strings = st.strings ++ ss := by
  unfold dispatchStep
  repeat' split
  exacts [wsStep_ext st c rest, commentStep_ext st c rest, stringStep_ext st c rest,
    dotsStep_ext st rest, identStep_ext st c rest, numberStep_ext st c rest,
    opStep_ext st c rest]

theorem wsStep_comment (st : RLexer) (c : Char) (rest : List Char)
    (hst : ∀ t ∈ st.token_sequence, t.lex_type = LexemType.COMMENT → t.code = "C#") :
    ∀ t ∈ (wsStep st c rest).1.token_sequence,
      t.lex_type = LexemType.COMMENT → t.code = "C#" := by
  unfold wsStep; split <;> simpa using hst

theorem commentStep_comment (st : RLexer) (c : Char) (rest : List Char)
    (hst : ∀ t ∈ st.token_sequence, t.lex_type = LexemType.COMMENT → t.code = "C#") :
    ∀ t ∈ (commentStep st c rest).1.token_sequence,
      t.lex_type = LexemType.COMMENT → t.code = "C#" := by
  unfold commentStep
  intro t ht
  simp only [List.mem_append, List.mem_singleton] at ht
  rcases ht with h1 | h1
  · exact hst t h1
  · subst h1; intro _; rfl

theorem stringStep_comment (st : RLexer) (c : Char) (rest : List Char)
    (hst : ∀ t ∈ st.token_sequence, t.lex_type = LexemType.COMMENT → t.code = "C#") :
    ∀ t ∈ (stringStep st c rest).1.token_sequence,
      t.lex_type = LexemType.COMMENT → t.code = "C#" := by
  unfold stringStep; split
  all_goals intro t ht
  all_goals simp only [List.mem_append, List.mem_singleton] at ht
  all_goals rcases ht with h1 | h1
  · exact hst t h1
  · subst h1; intro hC; simp at hC
  · exact hst t h1
  · subst h1; intro hC; simp at hC

theorem dotsStep_comment (st : RLexer) (rest : List Char)
    (hst : ∀ t ∈ st.token_sequence, t.lex_type = LexemType.COMMENT → t.code = "C#") :
    ∀ t ∈ (dotsStep st rest).1.token_sequence,
      t.lex_type = LexemType.COMMENT → t.code = "C#" := by
  unfold dotsStep
  intro t ht
  simp only [List.mem_append, List.mem_singleton] at ht
  rcases ht with h1 | h1
  · exact hst t h1
  · subst h1; intro hC; simp at hC

theorem identStep_comment (st : RLexer) (c : Char) (rest : List Char)
    (hst : ∀ t ∈ st.token_sequence, t.lex_type = LexemType.COMMENT → t.code = "C#") :
    ∀ t ∈ (identStep st c rest).1.token_sequence,
      t.lex_type = LexemType.COMMENT → t.code = "C#" := by
  unfold identStep; repeat' split
  all_goals intro t ht
  all_goals simp only [List.mem_append, List.mem_singleton] at ht
  all_goals rcases ht with h1 | h1
  · exact hst t h1
  · subst h1; intro hC; simp at hC
  · exact hst t h1
  · subst h1; intro hC; simp at hC

theorem numberStep_comment (st : RLexer) (c : Char) (rest : List Char)
    (hst : ∀ t ∈ st.token_sequence, t.lex_type = LexemType.COMMENT → t.code = "C#") :
    ∀ t ∈ (numberStep st c rest).1.token_sequence,
      t.lex_type = LexemType.COMMENT → t.code = "C#" := by
  unfold numberStep; repeat' split
  all_goals intro t ht
  all_goals simp only [List.mem_append, List.mem_singleton] at ht
  all_goals first
    | exact hst t ht
    | (rcases ht with h1 | h1
       · exact hst t h1
       · subst h1; intro hC; simp at hC)

theorem opStep_comment (st : RLexer) (c : Char) (rest : List Char)
    (hst : ∀ t ∈ st.token_sequence, t.lex_type = LexemType.COMMENT → t.code = "C#") :
    ∀ t ∈ (opStep st c rest).1.token_sequence,
      t.lex_type = LexemType.COMMENT → t.code = "C#" := by
  unfold opStep; repeat' split
  all_goals intro t ht
  all_goals simp only [List.mem_append, List.mem_singleton] at ht
  all_goals rcases ht with h1 | h1
  all_goals first
    | exact hst t h1
    | (subst h1; intro hC; simp at hC)

theorem dispatchStep_comment (st : RLexer) (c : Char) (rest : List Char)
    (hst : ∀ t ∈ st.token_sequence, t.lex_type = LexemType.COMMENT → t.code = "C#") :
    ∀ t ∈ (dispatchStep st c rest).1.token_sequence,
      t.lex_type = LexemType.COMMENT → t.code = "C#" := by
  unfold dispatchStep
  repeat' split
  exacts [wsStep_comment st c rest hst, commentStep_comment st c rest hst,
    stringStep_comment st c rest hst, dotsStep_comment st rest hst,
    identStep_comment st c rest hst, numberStep_comment st c rest hst,
    opStep_comment st c rest hst]

theorem scanLoop_nil (f : Nat) (st : RLexer) : scanLoop f [] st = st := by
  cases f <;> simp [scanLoop]

theorem scanLoop_statics : ∀ (f : Nat) (l : List Char) (st : RLexer),
    (scanLoop f l st).keywords = st.keywords ∧
    (scanLoop f l st).delimiters = st.delimiters ∧
    (scanLoop f l st).operations = st.operations ∧
    (scanLoop f l st).original_code = st.original_code := by
  intro f
  induction f with
  | zero => intro l st; simp [scanLoop]
  | succ n ih =>
    intro l st
    cases l with
    | nil => simp [scanLoop]
    | cons c rest =>
      have hd := dispatchStep_statics st c rest
      have hi := ih (dispatchStep st c rest).2 (dispatchStep st c rest).1
      simp only [scanLoop]
      exact ⟨hi.1.trans hd.1, hi.2.1.trans hd.2.1, hi.2.2.1.trans hd.2.2.1,
        hi.2.2.2.trans hd.2.2.2⟩

theorem scanLoop_errBalance : ∀ (f : Nat) (l : List Char) (st : RLexer),
    (scanLoop f l st).errors.length + errCount st.token_sequence =
      errCount (scanLoop f l st).token_sequence + st.errors.length := by
  intro f
  induction f with
  | zero => intro l st; simp [scanLoop]; omega
  | succ n ih =>
    intro l st
    cases l with
    | nil => simp [scanLoop]; omega
    | cons c rest =>
      have hd := dispatchStep_errBalance st c rest
      have hi := ih (dispatchStep st c rest).2 (dispatchStep st c rest).1
      simp only [scanLoop]
      omega

theorem scanLoop_sumVal : ∀ (f : Nat) (l : List Char) (st : RLexer),
    sumVal (scanLoop f l st).token_sequence ≤ sumVal st.token_sequence + l.length := by
  intro f
  induction f with
  | zero => intro l st; simp [scanLoop]
  | succ n ih =>
    intro l st
    cases l with
    | nil => simp [scanLoop]
    | cons c rest =>
      have hd := dispatchStep_sumVal st c rest
      have hi := ih (dispatchStep st c rest).2 (dispatchStep st c rest).1
      simp only [scanLoop, List.length_cons] at hd hi ⊢
      omega

theorem scanLoop_ext : ∀ (f : Nat) (l : List Char) (st : RLexer),
    ∃ ts es ss, (scanLoop f l st).token_sequence = st.token_sequence ++ ts ∧
      (scanLoop f l st).errors = st.errors ++ es ∧
      (scanLoop f l st).strings = st.strings ++ ss := by
  intro f
  induction f with
  | zero => intro l st; exact ⟨[], [], [], by simp [scanLoop], by simp [scanLoop], by simp [scanLoop]⟩
  | succ n ih =>
    intro l st
    cases l with
    | nil => exact ⟨[], [], [], by simp [scanLoop], by simp [scanLoop], by simp [scanLoop]⟩
    | cons c rest =>
      obtain ⟨ts1, es1, ss1, h1, h2, h3⟩ := dispatchStep_ext st c rest
      obtain ⟨ts2, es2, ss2, g1, g2, g3⟩ := ih (dispatchStep st c rest).2 (dispatchStep st c rest).1
      refine ⟨ts1 ++ ts2, es1 ++ es2, ss1 ++ ss2, ?_, ?_, ?_⟩
      all_goals simp only [scanLoop]
      · rw [g1, h1, List.append_assoc]
      · rw [g2, h2, List.append_assoc]
      · rw [g3, h3, List.append_assoc]

theorem scanLoop_comment : ∀ (f : Nat) (l : List Char) (st : RLexer),
    (∀ t ∈ st.token_sequence, t.lex_type = LexemType.COMMENT → t.code = "C#") →
    ∀ t ∈ (scanLoop f l st).token_sequence,
      t.lex_type = LexemType.COMMENT → t.code = "C#" := by
  intro f
  induction f with
  | zero => intro l st hst; simpa [scanLoop] using hst
  | succ n ih =>
    intro l st hst
    cases l with
    | nil => simpa [scanLoop] using hst
    | cons c rest =>
      have hd := dispatchStep_comment st c rest hst
      have hi := ih (dispatchStep st c rest).2 (dispatchStep st c rest).1 hd
      simpa [scanLoop] using hi

theorem findOpAux_pos (ops : List (String × Nat)) (l : List Char) :
    ∀ (n : Nat) (p : List Char × Nat), findOpAux ops l n = some p → 1 ≤ p.1.length := by
  intro n
  induction n with
  | zero => intro p h; simp [findOpAux] at h
  | succ m ih =>
    intro p h
    simp only [findOpAux] at h
    split at h
    · split at h
      · next hle _ =>
          cases h
          simp only [List.length_take]
          omega
      · exact ih p h
    · exact ih p h

theorem consumeNum_digit_ne_nil (c : Char) (cs : List Char) (h : pyIsDigit c = true) :
    (consumeNum [] (c :: cs)).1 ≠ [] := by
  have hd : 48 ≤ c.toNat ∧ c.toNat ≤ 57 := by simpa [pyIsDigit] using h
  have ha : ¬(pyIsAlpha c = true) := by
    simp only [pyIsAlpha, decide_eq_true_eq]; omega
  have hdot : ¬(c = '.') := fun hc => by subst hc; exact absurd hd (by decide)
  have hpm : ¬(c = '+' ∨ c = '-') := by
    rintro (hc | hc) <;> (subst hc; exact absurd hd (by decide))
  unfold consumeNum
  rw [if_neg ha, if_neg hdot, if_neg hpm, if_pos h]
  simp

theorem consumeNum_dot_ne_nil (cs : List Char) (h : digitNext cs = true) :
    (consumeNum [] ('.' :: cs)).1 ≠ [] := by
  cases cs with
  | nil => simp [digitNext] at h
  | cons d ds =>
    have hd : 48 ≤ d.toNat ∧ d.toNat ≤ 57 := by simpa [digitNext, pyIsDigit] using h
    have hdot : ¬(headIsDot (d :: ds) = true) := by
      simp only [headIsDot, beq_iff_eq]
      intro hc; subst hc; exact absurd hd (by decide)
    unfold consumeNum
    rw [if_neg (by decide), if_pos rfl, if_neg hdot]
    simp

theorem dispatchStep_progress (st : RLexer) (c : Char) (rest : List Char) :
    (dispatchStep st c rest).2.length ≤ rest.length := by
  unfold dispatchStep
  repeat' split
  · unfold wsStep; split <;> simp
  · unfold commentStep
    have h := tw_dw_length (fun d => d != '\n') rest
    simp
    omega
  · unfold stringStep; split
    · next hcl =>
        have h := congrArg List.length ((scanStr_split rest c).1 hcl)
        simp [List.length_append] at h
        simp
        omega
    · next hcl =>
        have h := (scanStr_split rest c).2 (by simpa using hcl)
        simp [h.2]
  · unfold dotsStep
    simp [List.length_tail]
  · next hid =>
    unfold identStep
    have hc : (fun d => pyIsAlnum d || d == '.' || d == '_') c = true := by
      rcases hid with h | h | h
      · simp [pyIsAlnum, h]
      · simp [h]
      · simp [h]
    have hdw : (c :: rest).dropWhile (fun d => pyIsAlnum d || d == '.' || d == '_') =
        rest.dropWhile (fun d => pyIsAlnum d || d == '.' || d == '_') :=
      List.dropWhile_cons_of_pos hc
    have h := tw_dw_length (fun d => pyIsAlnum d || d == '.' || d == '_') rest
    repeat' split
    all_goals simp [hdw]
    all_goals omega
  · next hnum =>
    unfold numberStep
    have hne : (consumeNum [] (c :: rest)).1 ≠ [] := by
      rcases hnum with h | ⟨hc, hd⟩
      · exact consumeNum_digit_ne_nil c rest h
      · subst hc; exact consumeNum_dot_ne_nil rest hd
    have hsplit := congrArg List.length (consumeNum_split (c :: rest) [])
    simp only [List.length_append, List.length_cons] at hsplit
    have hlen : 1 ≤ (consumeNum [] (c :: rest)).1.length := by
      cases hq : (consumeNum [] (c :: rest)).1 with
      | nil => exact absurd hq hne
      | cons a as => simp [hq]
    repeat' split
    all_goals simp
    all_goals omega
  · unfold opStep
    repeat' split
    · next p hp =>
        have h1 := findOpAux_le st.operations (c :: rest) 4 p hp
        have h2 := findOpAux_pos st.operations (c :: rest) 4 p hp
        simp only [List.length_cons] at h1
        simp [List.length_drop]
        omega
    all_goals simp

/-- Any two sufficient fuels give the same scan result: every iteration
consumes at least one character, so fuel equal to the remaining length
already runs the loop to completion. -/
theorem scanLoop_fuel : ∀ (f g : Nat) (l : List Char) (st : RLexer),
    l.length ≤ f → l.length ≤ g → scanLoop f l st = scanLoop g l st := by
  intro f
  induction f with
  | zero =>
    intro g l st hf _
    have hl : l = [] := List.eq_nil_of_length_eq_zero (Nat.le_zero.mp hf)
    subst hl
    rw [scanLoop_nil, scanLoop_nil]
  | succ n ih =>
    intro g l st hf hg
    cases l with
    | nil => rw [scanLoop_nil, scanLoop_nil]
    | cons c rest =>
      cases g with
      | zero => simp at hg
      | succ m =>
        have hp := dispatchStep_progress st c rest
        simp only [List.length_cons] at hf hg
        show scanLoop n (dispatchStep st c rest).2 (dispatchStep st c rest).1 =
          scanLoop m (dispatchStep st c rest).2 (dispatchStep st c rest).1
        exact ih m _ _ (by omega) (by omega)

/-- The fuelled loop with any sufficient fuel computes exactly
`tokenize`: the embedding agrees with the unbounded `while` loop of the
source. -/
theorem tokenize_while_loop (lx : RLexer) (code : String) (f : Nat)
    (hf : code.data.length ≤ f) :
    scanLoop f code.data { lx.reset with original_code := code } = lx.tokenize code :=
  scanLoop_fuel f code.data.length code.data _ hf (le_refl _)

/-- C3: tokenizing `"123.23.3"` produces exactly one token: an `E4`
Error token of the post-scan invalid-number-structure kind (not the
scan-time `E3` letters-in-number kind), whose value is the full digit
and dot run `123.23.3`, with the multiple-decimal-separator message. -/
theorem multi_dot_number_structural_error :
    (tokenizeText "123.23.3").token_sequence =
      [⟨"E4", "123.23.3", 1, 1, LexemType.ERROR,
        "Некорректное использование точки - число содержит несколько десятичных разделителей"⟩] ∧
    (tokenizeText "123.23.3").errors =
      ["Строка 1, колонка 1: Некорректное использование точки - число содержит несколько десятичных разделителей - \x27123.23.3\x27"] := by
  decide

/-- C4: tokenizing `"123a"` produces exactly one token: an `E3` Error
token of the scan-time letters-in-number kind with value `"123a"`, and
a corresponding entry is appended to the error list.  Moreover the
offending letter and every following alphanumeric or dot character are
absorbed into the run (for `"1a2.b+3"` the first emitted token is the
`E3` error with value `"1a2.b"`, absorption stopping at `+`). -/
theorem letters_in_number_scan_time_error :
    (tokenizeText "123a").token_sequence =
      [⟨"E3", "123a", 1, 1, LexemType.ERROR,
        "Некорректное построение числа - \x27123a\x27 содержит буквы"⟩] ∧
    (tokenizeText "123a").errors =
      ["Строка 1, колонка 1: Некорректное построение числа - \x27123a\x27 содержит буквы"] ∧
    (tokenizeText "1a2.b+3").token_sequence.head? =
      some ⟨"E3", "1a2.b", 1, 1, LexemType.ERROR,
        "Некорректное построение числа - \x271a2.b\x27 содержит буквы"⟩ := by
  decide

/-- C5: tokenizing `"123"` yields exactly one Number token with value
`"123"` and an empty error list, and tokenizing `"2.5e-3"` yields
exactly one Number token with value `"2.5e-3"` (the exponent marker and
sign consumed into the run, which passes validation) and no errors. -/
theorem plain_and_scientific_number_ok :
    (tokenizeText "123").token_sequence = [⟨"N1", "123", 1, 1, LexemType.NUMBER, ""⟩] ∧
    (tokenizeText "123").errors = [] ∧
    (tokenizeText "2.5e-3").token_sequence = [⟨"N1", "2.5e-3", 1, 1, LexemType.NUMBER, ""⟩] ∧
    (tokenizeText "2.5e-3").errors = [] := by
  decide

/-- C1 counterexample: on input `"1..2"` the scan reports no error at
all — the digit-preceded two-dot run is emitted as a Delimiter token,
the dispatcher is not context-sensitive on a preceding digit. -/
theorem dots_context_error_counterexample :
    (tokenizeText "1..2").errors = [] ∧
    (tokenizeText "1..2").token_sequence =
      [⟨"N1", "1", 1, 1, LexemType.NUMBER, ""⟩,
       ⟨"R19", "..", 1, 2, LexemType.DELIMITER, ""⟩,
       ⟨"N2", "2", 1, 4, LexemType.NUMBER, ""⟩] := by
  decide

/-- C2 counterexample: on input `"?1"` (no whitespace characters) the
emitted tokens cover only the one-character lexeme `?`, while the input
has length 2 — the trailing numeric run `1` is consumed without any
covering token, so exact total coverage fails. -/
theorem coverage_counterexample :
    (tokenizeText "?1").token_sequence.map Token.value = ["?"] ∧
    sumVal (tokenizeText "?1").token_sequence = 1 ∧
    ("?1" : String).length = 2 ∧
    (∀ ch ∈ ("?1" : String).data, pyIsSpace ch = false) := by
  decide

/-- C7 counterexample: for the unterminated string input `"abc` the
single error-list entry is exactly `Строка 1, колонка 1: Незакрытая
строка`, which is not of the claimed form ending in ` - '<lexeme>'`
(the offending lexeme `"abc` does not appear in the entry). -/
theorem error_format_counterexample :
    (tokenizeText "\"abc").errors = ["Строка 1, колонка 1: Незакрытая строка"] ∧
    (tokenizeText "\"abc").token_sequence.map Token.value = ["\"abc"] ∧
    "Строка 1, колонка 1: Незакрытая строка" ≠
      "Строка 1, колонка 1: Незакрытая строка - \x27\"abc\x27" := by
  decide

/-- C6 counterexample: the two distinct comment literals in
`"#a\n#b"` both receive the identical fixed code `C#` — no first-seen
ids are assigned to comments, contradicting interning of distinct
comment literals with distinct ids. -/
theorem comment_interning_counterexample :
    (tokenizeText "#a\n#b").token_sequence.map Token.code = ["C#", "C#"] ∧
    (tokenizeText "#a\n#b").token_sequence.map Token.value = ["#a", "#b"] ∧
    (tokenizeText "#a\n#b").token_sequence.map Token.lex_type =
      [LexemType.COMMENT, LexemType.COMMENT] := by
  decide

/-- C1 amended: whenever the dispatcher encounters a `.` immediately
followed by another `.`, it unconditionally emits the fixed two-character
Delimiter token `R19` with value `..` and consumes both dots, regardless
of what precedes; in particular `"1..2"` scans to Number, Delimiter,
Number with no error. -/
theorem dots_unconditional_delimiter :
    (∀ (fuel : Nat) (rs : List Char) (st : RLexer),
      scanLoop (fuel + 1) ('.' :: '.' :: rs) st =
        scanLoop fuel rs
          { st with
              token_sequence := st.token_sequence ++
                [⟨"R19", "..", st.current_line, st.current_column, LexemType.DELIMITER, ""⟩],
              current_column := st.current_column + 2 }) ∧
    (tokenizeText "1..2").errors = [] ∧
    (tokenizeText "1..2").token_sequence.map Token.lex_type =
      [LexemType.NUMBER, LexemType.DELIMITER, LexemType.NUMBER] := by
  refine ⟨?_, by decide, by decide⟩
  intro fuel rs st
  rfl

/-- C2 amended: the scan is monotone — the token sequence only grows by
appending — and the sum of consumed-span lengths across all emitted
tokens never exceeds the input length (spans never overlap); exact
equality with skipped whitespace fails only for numeric runs dropped
after an Error token, as shown by the counterexample. -/
theorem coverage_upper_bound :
    (∀ (lx : RLexer) (code : String),
      sumVal (lx.tokenize code).token_sequence ≤ code.length) ∧
    (∀ (f : Nat) (l : List Char) (st : RLexer),
      ∃ ts, (scanLoop f l st).token_sequence = st.token_sequence ++ ts) := by
  constructor
  · intro lx code
    have h := scanLoop_sumVal code.data.length code.data
      { lx.reset with original_code := code }
    have h2 : sumVal (lx.tokenize code).token_sequence ≤ 0 + code.data.length := by
      simpa [RLexer.tokenize, RLexer.reset] using h
    have h3 : code.length = code.data.length := rfl
    rw [h3]
    simpa using h2
  · intro f l st
    obtain ⟨ts, _, _, h, _, _⟩ := scanLoop_ext f l st
    exact ⟨ts, h⟩

/-- C7 amended: every detected error appends exactly one entry to the
error list and emits exactly one Error token — the scan always completes
and reports every error, never aborting (error-list length equals the
Error-token count for every input); the `Line L, column C: <message>`
prefix with a trailing quoted lexeme appears for invalid-number errors,
but the unterminated-string entry carries no lexeme. -/
theorem error_reporting_complete :
    (∀ (lx : RLexer) (code : String),
      (lx.tokenize code).errors.length = errCount (lx.tokenize code).token_sequence) ∧
    (tokenizeText "1.2.3").errors =
      ["Строка 1, колонка 1: Некорректное использование точки - число содержит несколько десятичных разделителей - \x271.2.3\x27"] ∧
    (tokenizeText "1.2.3 4§").errors.length = 2 ∧
    errCount (tokenizeText "1.2.3 4§").token_sequence = 2 := by
  refine ⟨?_, by decide, by decide, by decide⟩
  intro lx code
  have h := scanLoop_errBalance code.data.length code.data
    { lx.reset with original_code := code }
  simpa [RLexer.tokenize, RLexer.reset] using h

/-- C6 amended: comments are not interned into any table — the scanner
has no comments table and every Comment token of any scan carries the
fixed code `C#`; the state cleared at the start of every scan consists
of the identifiers, numbers and strings tables, the token sequence, the
error lists and the cursor, while the static tables are untouched. -/
theorem comment_code_fixed :
    (∀ (lx : RLexer) (code : String),
      ∀ t ∈ (lx.tokenize code).token_sequence,
        t.lex_type = LexemType.COMMENT → t.code = "C#") ∧
    (∀ lx : RLexer,
      lx.reset.identifiers = [] ∧ lx.reset.numbers = [] ∧ lx.reset.strings = [] ∧
      lx.reset.token_sequence = [] ∧ lx.reset.errors = [] ∧
      lx.reset.current_line = 1 ∧ lx.reset.current_column = 1 ∧
      lx.reset.keywords = lx.keywords ∧ lx.reset.delimiters = lx.delimiters ∧
      lx.reset.operations = lx.operations) := by
  constructor
  · intro lx code
    have h := scanLoop_comment code.data.length code.data
      { lx.reset with original_code := code } (by simp [RLexer.reset])
    simpa [RLexer.tokenize] using h
  · intro lx
    simp [RLexer.reset]

/-- Witness for the amended C6 theorem at the concrete scan of `"#a"`:
its comment token carries code `C#`. -/
theorem comment_code_fixed_witness :
    (⟨"C#", "#a", 1, 1, LexemType.COMMENT, ""⟩ : Token).code = "C#" :=
  comment_code_fixed.1 RLexer.new "#a"
    ⟨"C#", "#a", 1, 1, LexemType.COMMENT, ""⟩ (by decide) (by decide)

/-- C9: tokenizing the same text twice on the same scanner instance
(hence also on fresh instances) yields identical token sequences and
identical error lists, because `tokenize` resets all dynamic state and
scanning leaves the static tables untouched. -/
theorem tokenize_deterministic (lx : RLexer) (code : String) :
    ((lx.tokenize code).tokenize code).token_sequence = (lx.tokenize code).token_sequence ∧
    ((lx.tokenize code).tokenize code).errors = (lx.tokenize code).errors ∧
    (lx.tokenize code).keywords = lx.keywords ∧
    (lx.tokenize code).delimiters = lx.delimiters ∧
    (lx.tokenize code).operations = lx.operations := by
  have hstat := scanLoop_statics code.data.length code.data
    { lx.reset with original_code := code }
  have hk : (lx.tokenize code).keywords = lx.keywords := by
    simpa [RLexer.tokenize, RLexer.reset] using hstat.1
  have hd : (lx.tokenize code).delimiters = lx.delimiters := by
    simpa [RLexer.tokenize, RLexer.reset] using hstat.2.1
  have ho : (lx.tokenize code).operations = lx.operations := by
    simpa [RLexer.tokenize, RLexer.reset] using hstat.2.2.1
  have hpre : { (lx.tokenize code).reset with original_code := code } =
      { lx.reset with original_code := code } := by
    ext1 <;> simp [RLexer.reset, hk, hd, ho]
  have hmain : (lx.tokenize code).tokenize code = lx.tokenize code := by
    show scanLoop code.data.length code.data { (lx.tokenize code).reset with original_code := code } =
      scanLoop code.data.length code.data { lx.reset with original_code := code }
    rw [hpre]
  exact ⟨by rw [hmain], by rw [hmain], hk, hd, ho⟩

/-- A digit character fails every dispatch guard before the numeric
branch. -/
theorem pyIsDigit_context (c : Char) (h : pyIsDigit c = true) :
    pyIsSpace c = false ∧ c ≠ '#' ∧ ¬(c = '"' ∨ c = '\'') ∧
    ¬(pyIsAlpha c = true ∨ c = '.' ∨ c = '_') := by
  have hd : 48 ≤ c.toNat ∧ c.toNat ≤ 57 := by simpa [pyIsDigit] using h
  refine ⟨?_, ?_, ?_, ?_⟩
  · simp only [pyIsSpace, decide_eq_false_iff_not]; omega
  · intro hc; subst hc; exact absurd hd (by decide)
  · rintro (hc | hc) <;> (subst hc; exact absurd hd (by decide))
  · rintro (ha | hc | hc)
    · have h2 : (65 ≤ c.toNat ∧ c.toNat ≤ 90) ∨ (97 ≤ c.toNat ∧ c.toNat ≤ 122) := by
        simpa [pyIsAlpha] using ha
      omega
    · subst hc; exact absurd hd (by decide)
    · subst hc; exact absurd hd (by decide)

/-- C10: when the numeric scanner finishes consuming a candidate run
without the scan-time letters error while the most recently emitted
token is an Error token, the dispatcher emits no token for the run, does
not intern it into the Numbers table, appends no error, and only
advances the cursor past the consumed run. -/
theorem number_run_dropped_after_error (fuel : Nat) (c : Char) (rest : List Char)
    (st : RLexer)
    (hdig : pyIsDigit c = true)
    (hne : st.token_sequence ≠ [])
    (herr : (st.token_sequence.getLast?).map Token.lex_type = some LexemType.ERROR)
    (hok : (consumeNum [] (c :: rest)).2.1 = false) :
    scanLoop (fuel + 1) (c :: rest) st =
      scanLoop fuel (consumeNum [] (c :: rest)).2.2
        { st with current_column := st.current_column + (consumeNum [] (c :: rest)).1.length } := by
  obtain ⟨h1, h2, h3, h5⟩ := pyIsDigit_context c hdig
  have h1' : ¬(pyIsSpace c = true) := by simp [h1]
  have hcd : c ≠ '.' := fun hc => h5 (Or.inr (Or.inl hc))
  have h4 : ¬(c = '.' ∧ headIsDot rest = true) := fun hp => hcd hp.1
  have hlast : lastTokenIsErr st.token_sequence = true := by
    unfold lastTokenIsErr
    cases hgl : st.token_sequence.getLast? with
    | none => exact absurd (List.getLast?_eq_none_iff.mp hgl) hne
    | some t =>
      rw [hgl] at herr
      have ht : t.lex_type = LexemType.ERROR := by simpa using herr
      simp [ht]
  have hds : dispatchStep st c rest = numberStep st c rest := by
    unfold dispatchStep
    rw [if_neg h1', if_neg h2, if_neg h3, if_neg h4, if_neg h5, if_pos (Or.inl hdig)]
  have hskip : ¬((consumeNum [] (c :: rest)).1 ≠ [] ∧
      lastTokenIsErr st.token_sequence = false) := by
    simp [hlast]
  show scanLoop fuel (dispatchStep st c rest).2 (dispatchStep st c rest).1 = _
  rw [hds]
  unfold numberStep
  rw [if_neg (by simp [hok]), if_neg hskip]

/-- Opening-quote inputs enter the string branch on the first
iteration. -/
theorem tokenize_quote_step (q : Char) (hq : q = '"' ∨ q = '\'') (rest : List Char) :
    RLexer.new.tokenize (String.mk (q :: rest)) =
      scanLoop rest.length
        (stringStep { RLexer.new.reset with original_code := String.mk (q :: rest) } q rest).2
        (stringStep { RLexer.new.reset with original_code := String.mk (q :: rest) } q rest).1 := by
  rcases hq with rfl | rfl <;> rfl

/-- C8: for every input beginning with a quote character: when the rest
contains no unescaped matching quote, the scan emits exactly one `E1`
unterminated-string Error token whose value is the text from the opening
quote to the end of input, with one error entry; when a matching closing
quote is reached, the first emitted token is a String token whose value
includes both delimiting quotes and that value is interned in the
Strings table. -/
theorem string_scanner_cases (q : Char) (rest : List Char) (hq : q = '"' ∨ q = '\'') :
    (noClose q rest = true →
      (RLexer.new.tokenize (String.mk (q :: rest))).token_sequence =
        [⟨"E1", String.mk (q :: rest), 1, 1, LexemType.ERROR, "Незакрытая строка"⟩] ∧
      (RLexer.new.tokenize (String.mk (q :: rest))).errors =
        ["Строка 1, колонка 1: Незакрытая строка"]) ∧
    (noClose q rest = false →
      (RLexer.new.tokenize (String.mk (q :: rest))).token_sequence.head? =
        some ⟨"S1", String.mk (q :: (scanStr q rest).1 ++ [q]), 1, 1, LexemType.STRING, ""⟩ ∧
      String.mk (q :: (scanStr q rest).1 ++ [q]) ∈
        (RLexer.new.tokenize (String.mk (q :: rest))).strings) := by
  constructor
  · intro hnc
    have hscan := scanStr_noClose_eq q rest hnc
    have h0 : (stringStep { RLexer.new.reset with original_code := String.mk (q :: rest) } q rest).2 = [] := by
      unfold stringStep
      rw [hscan]
      simp
    have h1 : (stringStep { RLexer.new.reset with original_code := String.mk (q :: rest) } q rest).1.token_sequence =
        [⟨"E1", String.mk (q :: rest), 1, 1, LexemType.ERROR, "Незакрытая строка"⟩] := by
      unfold stringStep
      rw [hscan]
      simp [RLexer.new, RLexer.reset]
    have h2 : (stringStep { RLexer.new.reset with original_code := String.mk (q :: rest) } q rest).1.errors =
        ["Строка 1, колонка 1: Незакрытая строка"] := by
      unfold stringStep
      rw [hscan]
      rw [if_neg (by exact Bool.false_ne_true)]
      show [] ++ ["Строка " ++ toString 1 ++ ", колонка " ++ toString 1 ++ ": Незакрытая строка"] = _
      decide
    rw [tokenize_quote_step q hq rest, h0, scanLoop_nil]
    exact ⟨h1, h2⟩
  · intro hnc
    have hcl : (scanStr q rest).2.1 = true := by rw [noClose_scanStr, hnc]; rfl
    have h1 : (stringStep { RLexer.new.reset with original_code := String.mk (q :: rest) } q rest).1.token_sequence =
        [⟨"S1", String.mk (q :: (scanStr q rest).1 ++ [q]), 1, 1, LexemType.STRING, ""⟩] := by
      unfold stringStep
      rw [if_pos hcl]
      have hS : "S" ++ toString (1 : Nat) = "S1" := by decide
      simp [RLexer.new, RLexer.reset, RLexer.add_string, addToTable, lookupIdFrom, hS]
    have h2 : (stringStep { RLexer.new.reset with original_code := String.mk (q :: rest) } q rest).1.strings =
        [String.mk (q :: (scanStr q rest).1 ++ [q])] := by
      unfold stringStep
      rw [if_pos hcl]
      simp [RLexer.new, RLexer.reset, RLexer.add_string, addToTable, lookupIdFrom]
    rw [tokenize_quote_step q hq rest]
    obtain ⟨ts, es, ss, hts, hes, hss⟩ := scanLoop_ext rest.length
      (stringStep { RLexer.new.reset with original_code := String.mk (q :: rest) } q rest).2
      (stringStep { RLexer.new.reset with original_code := String.mk (q :: rest) } q rest).1
    constructor
    · rw [hts, h1]
      simp
    · rw [hss, h2]
      simp

/-- Witness for the C8 theorem at the concrete inputs `"a` (no closing
quote) and `"a"` (closed). -/
theorem string_scanner_cases_witness :
    ((RLexer.new.tokenize (String.mk ['"', 'a'])).token_sequence =
        [⟨"E1", String.mk ['"', 'a'], 1, 1, LexemType.ERROR, "Незакрытая строка"⟩] ∧
      (RLexer.new.tokenize (String.mk ['"', 'a'])).errors =
        ["Строка 1, колонка 1: Незакрытая строка"]) ∧
    ((RLexer.new.tokenize (String.mk ['"', 'a', '"'])).token_sequence.head? =
        some ⟨"S1", String.mk ('"' :: (scanStr '"' ['a', '"']).1 ++ ['"']), 1, 1,
          LexemType.STRING, ""⟩ ∧
      String.mk ('"' :: (scanStr '"' ['a', '"']).1 ++ ['"']) ∈
        (RLexer.new.tokenize (String.mk ['"', 'a', '"'])).strings) :=
  ⟨(string_scanner_cases '"' ['a'] (Or.inl rfl)).1 (by decide),
   (string_scanner_cases '"' ['a', '"'] (Or.inl rfl)).2 (by decide)⟩

/-- Witness for the C10 theorem: after scanning `"?"` (whose last token
is the unknown-symbol Error token), the numeric run `1` is consumed with
no effect beyond the column advance. -/
theorem number_run_dropped_after_error_witness :
    scanLoop (0 + 1) ['1'] (RLexer.new.tokenize "?") =
      scanLoop 0 (consumeNum [] ['1']).2.2
        { RLexer.new.tokenize "?" with
            current_column := (RLexer.new.tokenize "?").current_column +
              (consumeNum [] ['1']).1.length } :=
  number_run_dropped_after_error 0 '1' [] (RLexer.new.tokenize "?")
    (by decide) (by decide) (by decide) (by decide)

end RLex
